import Mathlib

set_option maxRecDepth 40000

/-!
Verification development for the github-review-mcp server.

The definitions below are a shallow embedding of the repository's
JavaScript source:

* `GitHubService.parsePRUrl` (src/tools/get_pr_files.js, second module):
  the regular-expression search
  `url.match(/github\.com\/([^/]+)\/([^/]+)\/pull\/(\d+)/)` together with
  `parseInt` on the third capture group.
* `GitHubService.getPRDetails`, `GitHubService.getFileContent`,
  `GitHubService.createReview`: the platform-client methods, with the
  Octokit REST calls abstracted as an oracle whose invocations are logged.
* the tool handlers `handleGetPRFiles` and `handlePostPRReview`
  (src/tools/get_pr_files.js, src/tools/post_pr_review.js).
* the MCP dispatch switch of `setupToolHandlers` (src/index.js).
* the conversation orchestrator `reviewPullRequest` /
  `handleFunctionCalls` / `executeToolFunction` of the review handler
  module (second module of src/hosted.js), with the Gemini backend
  abstracted as a scripted sequence of replies.

Machine-level facts that the claims do not touch (base64 decoding of
file contents, the HTTP transport, console logging) are abstracted:
network payload bodies are carried as opaque strings.
-/

namespace GithubReviewMcp

/-! ## Decimal digits

Helpers for the `\d+` capture group and JavaScript's `parseInt` and
template-literal rendering of numbers. -/

/-- Numeric value of a decimal digit character (the semantics of
`parseInt` on a digit string, one step). -/
def digitVal (c : Char) : Nat := c.toNat - 48

/-- Value of a decimal digit string, most significant first: the
semantics of JavaScript `parseInt(s)` on a string of digits. -/
def digitsToNat (ds : List Char) : Nat :=
  ds.foldl (fun a c => a * 10 + digitVal c) 0

/-- Decimal digit character for a value below ten. -/
def digitChar (d : Nat) : Char := Char.ofNat (48 + d)

/-- Decimal rendering of a natural number, as in a JavaScript template
literal interpolating a number. -/
def natRepr (n : Nat) : List Char :=
  if h : n < 10 then [digitChar n]
  else natRepr (n / 10) ++ [digitChar (n % 10)]
  termination_by n
  decreasing_by
    exact Nat.div_lt_self (by omega) (by omega)

/-! ## PR URL parsing

Embedding of `GitHubService.parsePRUrl`:
`url.match(/github\.com\/([^/]+)\/([^/]+)\/pull\/(\d+)/)` followed by
`parseInt(match[3])`.  The unanchored regex search is modelled by trying
the pattern at every start position from the left; each capture group
`[^/]+` is a maximal nonempty run of non-slash characters (greedy, and
no backtracking is possible inside a segment because the character after
a maximal run of non-slash characters can only be a slash or the end of
the string). -/

/-- Result of a successful parse: the three capture groups, with the
pull number already converted by `parseInt`. -/
structure PRRef where
  owner : String
  repo : String
  pull_number : Nat
deriving Repr, DecidableEq

/-- Consume an exact literal at the head of the input; `none` if the
input does not start with the literal. -/
def dropLit : List Char → List Char → Option (List Char)
  | [], s => some s
  | _ :: _, [] => none
  | c :: cs, d :: ds => if c = d then dropLit cs ds else none

/-- Match `([^/]+)\/([^/]+)\/pull\/(\d+)` directly after the literal
`github.com/` has been consumed: a maximal nonempty run of non-slash
characters, a slash, a second such run, the literal `/pull/`, and a
nonempty run of digits. -/
def matchTail (s : List Char) : Option PRRef :=
  let owner := s.takeWhile (fun c => c != '/')
  if owner = [] then none
  else
    match dropLit ['/'] (s.dropWhile (fun c => c != '/')) with
    | none => none
    | some s2 =>
      let repo := s2.takeWhile (fun c => c != '/')
      if repo = [] then none
      else
        match dropLit "/pull/".data (s2.dropWhile (fun c => c != '/')) with
        | none => none
        | some s4 =>
          let ds := s4.takeWhile Char.isDigit
          if ds = [] then none
          else some ⟨⟨owner⟩, ⟨repo⟩, digitsToNat ds⟩

/-- Try the whole pattern at the current position. -/
def matchHere (s : List Char) : Option PRRef :=
  match dropLit "github.com/".data s with
  | none => none
  | some rest => matchTail rest

/-- Unanchored search: try the pattern at every start position, left to
right, as the JavaScript regex engine does. -/
def searchPR : List Char → Option PRRef
  | [] => none
  | c :: cs =>
    match matchHere (c :: cs) with
    | some r => some r
    | none => searchPR cs

/-- Embedding of `GitHubService.parsePRUrl`.  `none` corresponds to the
thrown `Invalid GitHub PR URL format` error. -/
def parsePRUrl (url : String) : Option PRRef :=
  searchPR url.data

/-- Reconstruction of the URL path segment `owner/repo/pull/n` from the
parsed components, rendering the pull number in decimal as a JavaScript
template literal would. -/
def reconstructPath (r : PRRef) : List Char :=
  r.owner.data ++ '/' :: r.repo.data ++ "/pull/".data ++ natRepr r.pull_number

/-! ## Platform client (`GitHubService`)

The Octokit REST client is an external collaborator: it is abstracted
as a deterministic oracle whose methods either return data or throw
(`Except.error`).  Every REST invocation performed by a service method
is recorded in a list of `GHCall` entries, so that "no remote call was
made" is expressible as an empty log.  Network payload bodies that no
claim inspects (PR metadata, commit lists, review lists) are carried as
opaque strings; the field projections the source applies to them are
representation-level and claim-irrelevant. -/

structure FileInfo where
  filename : String
  status : String
  additions : Nat
  deletions : Nat
  changes : Nat
  patch : Option String
  blob_url : String
deriving Repr, DecidableEq

structure ReviewComment where
  path : String
  line : Nat
  body : String
deriving Repr, DecidableEq

/-- The `review` argument of `GitHubService.createReview`, after the
method's destructuring `{ body, event = 'COMMENT', comments = [] }`
(the handler always passes all three fields explicitly). -/
structure ReviewPayload where
  body : String
  event : String
  comments : List ReviewComment
deriving Repr, DecidableEq

structure ReviewResponse where
  id : Nat
  html_url : String
deriving Repr, DecidableEq

/-- One remote (network) operation against the source platform.
`createReview` is recorded with the service-level payload; the optional
`comments` field of the REST body is the pure function
`restReviewComments` of that payload. -/
inductive GHCall
  | pullsGet (owner repo : String) (n : Nat)
  | listFiles (owner repo : String) (n : Nat)
  | listCommits (owner repo : String) (n : Nat)
  | listReviews (owner repo : String) (n : Nat)
  | createReview (owner repo : String) (n : Nat) (review : ReviewPayload)
deriving Repr, DecidableEq

/-- The Octokit REST client as a deterministic oracle. -/
structure Octokit where
  pullsGet : String → String → Nat → Except String String
  listFiles : String → String → Nat → Except String (List FileInfo)
  listCommits : String → String → Nat → Except String String
  listReviews : String → String → Nat → Except String String
  createReview : String → String → Nat → ReviewPayload → Except String ReviewResponse

/-- The `comments` field of the REST review body: present only when the
list is nonempty (`if (comments.length > 0)` in
`GitHubService.createReview`). -/
def restReviewComments (review : ReviewPayload) : Option (List ReviewComment) :=
  if review.comments.length > 0 then some review.comments else none

/-- Aggregate result of `GitHubService.getPRDetails`. -/
structure PRDetails where
  pr : String
  files : List FileInfo
  commits : String
  existing_reviews : String
  owner : String
  repo : String
deriving Repr, DecidableEq

/-- Embedding of `GitHubService.getPRDetails`: parse the URL first
(throwing the format error with no REST call when it does not match),
then perform the four REST calls in order, each propagating its error.
The source's per-field projections of the REST payloads are identity
here because the oracle already returns the projected shapes. -/
def getPRDetails (ok : Octokit) (url : String) :
    Except String PRDetails × List GHCall :=
  match parsePRUrl url with
  | none => (.error "Invalid GitHub PR URL format", [])
  | some pr =>
    match ok.pullsGet pr.owner pr.repo pr.pull_number with
    | .error m => (.error m, [.pullsGet pr.owner pr.repo pr.pull_number])
    | .ok prInfo =>
      match ok.listFiles pr.owner pr.repo pr.pull_number with
      | .error m => (.error m,
          [.pullsGet pr.owner pr.repo pr.pull_number,
           .listFiles pr.owner pr.repo pr.pull_number])
      | .ok files =>
        match ok.listCommits pr.owner pr.repo pr.pull_number with
        | .error m => (.error m,
            [.pullsGet pr.owner pr.repo pr.pull_number,
             .listFiles pr.owner pr.repo pr.pull_number,
             .listCommits pr.owner pr.repo pr.pull_number])
        | .ok commits =>
          match ok.listReviews pr.owner pr.repo pr.pull_number with
          | .error m => (.error m,
              [.pullsGet pr.owner pr.repo pr.pull_number,
               .listFiles pr.owner pr.repo pr.pull_number,
               .listCommits pr.owner pr.repo pr.pull_number,
               .listReviews pr.owner pr.repo pr.pull_number])
          | .ok reviews =>
            (.ok ⟨prInfo, files, commits, reviews, pr.owner, pr.repo⟩,
              [.pullsGet pr.owner pr.repo pr.pull_number,
               .listFiles pr.owner pr.repo pr.pull_number,
               .listCommits pr.owner pr.repo pr.pull_number,
               .listReviews pr.owner pr.repo pr.pull_number])

/-- Payload of `octokit.repos.getContent`: the `type` discriminator and
the base64 content.  The runtime's base64 decode is library behavior;
the decoded text is represented by the payload string itself. -/
structure ContentData where
  type : String
  content : String
deriving Repr, DecidableEq

/-- An Octokit request error carrying an HTTP status. -/
structure ApiError where
  status : Nat
  message : String
deriving Repr, DecidableEq

/-- Embedding of `GitHubService.getFileContent`: its whole behavior is a
function of the one `repos.getContent` call's outcome, passed in as
`res`.  Returns `none` for JavaScript `null`. -/
def getFileContent (res : Except ApiError ContentData) :
    Except ApiError (Option String) :=
  match res with
  | .ok d => if d.type = "file" then .ok (some d.content) else .ok none
  | .error e => if e.status = 404 then .ok none else .error e

/-! ## Tool handlers -/

/-- Arguments of a tool invocation; `none` is an absent property. -/
structure ToolArgs where
  pr_url : Option String := none
  include_patch : Option Bool := none
  body : Option String := none
  event : Option String := none
  comments : Option (List ReviewComment) := none
deriving Repr, DecidableEq

/-- JavaScript falsiness of an optional string argument (`!x`):
absent or empty. -/
def falsy : Option String → Bool
  | none => true
  | some s => s = ""

/-- JavaScript truthiness of the optional `patch` field of a file. -/
def patchTruthy : Option String → Bool
  | none => false
  | some s => s ≠ ""

/-- One entry of the `files` list built by `handleGetPRFiles`: the six
projected fields plus the conditionally spread `patch`
(`...(include_patch && file.patch ? { patch: file.patch } : {})`). -/
structure FileEntry where
  filename : String
  status : String
  additions : Nat
  deletions : Nat
  changes : Nat
  blob_url : String
  patch : Option String
deriving Repr, DecidableEq

def fileEntryOf (ip : Bool) (f : FileInfo) : FileEntry :=
  ⟨f.filename, f.status, f.additions, f.deletions, f.changes, f.blob_url,
    if ip && patchTruthy f.patch then f.patch else none⟩

structure FilesResult where
  files : List FileEntry
  total_files : Nat
deriving Repr, DecidableEq

/-- Embedding of `handleGetPRFiles` (src/tools/get_pr_files.js): check
the required `pr_url` first, then fetch the PR details and project the
file list.  The second component is the log of remote calls made. -/
def handleGetPRFiles (ok : Octokit) (args : ToolArgs) :
    Except String FilesResult × List GHCall :=
  if falsy args.pr_url then (.error "PR URL is required", [])
  else
    let ip := args.include_patch.getD true
    match getPRDetails ok (args.pr_url.getD "") with
    | (.error m, log) => (.error m, log)
    | (.ok d, log) =>
      let files := d.files.map (fileEntryOf ip)
      (.ok ⟨files, files.length⟩, log)

structure PostReviewResult where
  success : Bool
  review_id : Nat
  review_url : String
deriving Repr, DecidableEq

/-- Embedding of `handlePostPRReview` (src/tools/post_pr_review.js):
check the required `pr_url` and `body` first, then parse the URL
(`GitHubService.parsePRUrl`, throwing the format error with no remote
call on mismatch), then perform `GitHubService.createReview`, whose one
REST call is the logged entry. -/
def handlePostPRReview (ok : Octokit) (args : ToolArgs) :
    Except String PostReviewResult × List GHCall :=
  if falsy args.pr_url || falsy args.body then
    (.error "PR URL and body are required", [])
  else
    match parsePRUrl (args.pr_url.getD "") with
    | none => (.error "Invalid GitHub PR URL format", [])
    | some pr =>
      let review : ReviewPayload :=
        ⟨args.body.getD "", args.event.getD "COMMENT", args.comments.getD []⟩
      match ok.createReview pr.owner pr.repo pr.pull_number review with
      | .error m => (.error m,
          [.createReview pr.owner pr.repo pr.pull_number review])
      | .ok res => (.ok ⟨true, res.id, res.html_url⟩,
          [.createReview pr.owner pr.repo pr.pull_number review])

/-! ## MCP dispatch (`setupToolHandlers`, src/index.js) -/

/-- The protocol error codes the dispatcher uses. -/
inductive ErrorCode
  | MethodNotFound
  | InternalError
deriving Repr, DecidableEq

structure McpError where
  code : ErrorCode
  message : String
deriving Repr, DecidableEq

/-- A thrown JavaScript value inside the dispatch `try` block: either an
`McpError` (thrown by the `default` branch) or an ordinary `Error`
carrying a message (thrown by a handler). -/
inductive Thrown
  | mcp (e : McpError)
  | plain (msg : String)
deriving Repr, DecidableEq

/-- The `.message` the `catch` block reads from a thrown value.  For an
`McpError` the SDK stores the construction message (the SDK may add a
code prefix; that formatting is not modelled). -/
def thrownMessage : Thrown → String
  | .mcp e => e.message
  | .plain m => m

/-- The fourteen registered tool names: the `case` labels of the
dispatch `switch`, equal to the keys of `toolHandlers`
(src/tools/index.js). -/
def toolNames : List String :=
  ["get_pr_details", "get_pr_files", "get_pr_commits", "get_file_content",
   "post_pr_review", "get_repo_info", "get_review_prompts",
   "analyze_code_quality", "analyze_diff_impact", "detect_security_issues",
   "detect_code_patterns", "analyze_dependencies", "analyze_test_coverage",
   "generate_suggestions"]

/-- Embedding of the `CallToolRequestSchema` handler: the `switch` over
registered names (each case forwarding to its handler, abstracted as
`handler name`), the `default` branch throwing
`McpError(MethodNotFound, ...)`, and the surrounding `catch` re-wrapping
every thrown value into `McpError(InternalError, ...)`. -/
def callToolDispatch (handler : String → Except String String)
    (name : String) : Except McpError String :=
  let attempt : Except Thrown String :=
    if name ∈ toolNames then
      match handler name with
      | .ok r => .ok r
      | .error m => .error (.plain m)
    else .error (.mcp ⟨.MethodNotFound, "Unknown tool: " ++ name⟩)
  match attempt with
  | .ok r => .ok r
  | .error t =>
    .error ⟨.InternalError, "Tool execution failed: " ++ thrownMessage t⟩

/-! ## Conversation orchestrator (review handler module of src/hosted.js)

The Gemini backend is abstracted as a script `Nat → BEvent`: the k-th
backend interaction (a `generateContent` or `chat.sendMessage` call)
either returns a reply or throws.  Tool execution
(`executeToolFunction` together with the registered handlers and their
collaborators) is abstracted as a deterministic oracle
`exec : ToolCall → Except String String`; a throwing tool is an
`Except.error` carrying `error.message`.  The source's defensive scan of
`candidates[0].content.parts` for function calls surfaces the same
datum as the SDK's `functionCalls` property, so a reply carries one
normalized `fcalls` list.  The session's tool-usage set and transcript
are internal to the source function; `Outcome.ok` exposes them so that
properties about them can be stated. -/

/-- A tool invocation requested by the backend; the argument object is
carried opaquely. -/
structure ToolCall where
  name : String
  args : String
deriving Repr, DecidableEq

/-- One backend reply: the requested function calls (empty when the
reply is pure text) and the reply text. -/
structure ModelReply where
  fcalls : List ToolCall := []
  text : String := ""
deriving Repr, DecidableEq

/-- One backend interaction: a reply, or a thrown communication error. -/
inductive BEvent
  | reply (r : ModelReply)
  | fail (msg : String)
deriving Repr, DecidableEq

def BEvent.isFail : BEvent → Bool
  | .reply _ => false
  | .fail _ => true

/-- One turn of the conversation transcript. -/
inductive Turn
  | user (t : String)
  | modelCall (c : ToolCall)
  | toolOk (name : String) (result : String)
  | toolError (name : String) (msg : String)
deriving Repr, DecidableEq

/-- Session outcome: a final answer (with the tool-usage set and the
transcript exposed for specification purposes — the source discards
them), a fatal backend communication failure (a thrown error), or fuel
exhaustion (the source's unbounded `while` loop did not finish within
the given fuel). -/
inductive Outcome
  | ok (message : String) (toolsUsed : List String) (transcript : List Turn)
  | fail (msg : String)
  | timeout
deriving Repr, DecidableEq

/-- `toolsUsed.add(name)`: insert a name if not already present.  The
set's cardinality is the list's length. -/
def addTool (n : String) (used : List String) : List String :=
  if n ∈ used then used else n :: used

/-- The initialization `new Set(['get_review_prompts'])` of the
tracking set at the top of the continuation loop. -/
def initialToolsUsed : List String := ["get_review_prompts"]

/-- The initial review instruction (the `prompt` template of
`reviewPullRequest`). -/
def initialPrompt (prUrl : String) : String :=
  "You are an expert code reviewer analyzing PR: " ++ prUrl ++
  "\n\nYou must start by calling the get_review_prompts function immediately. Do not explain what you will do - just call the function now."

/-- The three forcing rephrasings (the `strategies` array). -/
def strategyText (prUrl : String) : Nat → String
  | 0 => "Please call the get_review_prompts function now."
  | 1 => "Start by calling get_pr_details function with pr_url: \"" ++ prUrl ++ "\""
  | _ => "Use the available tools to analyze PR: " ++ prUrl ++ ". Call get_pr_details first."

/-- The diagnostic placeholder returned when all three forcing
strategies fail. -/
def degradedMessage : String :=
  "Unable to analyze PR - function calling not working properly. Please check configuration."

/-- The initial batch of `handleFunctionCalls` (its first `for` loop):
execute each requested call, appending the result — or, when the tool
throws, the structured `{ error: error.message }` payload — to the
conversation history.  No backend interaction happens here. -/
def initBatch (exec : ToolCall → Except String String) :
    List ToolCall → List Turn → List Turn
  | [], tr => tr
  | call :: rest, tr =>
    match exec call with
    | .ok r => initBatch exec rest (tr ++ [.toolOk call.name r])
    | .error m => initBatch exec rest (tr ++ [.toolError call.name m])

/-- The inner `for` loop of the `while` loop of `handleFunctionCalls`:
iterate over the batch of requested calls (the list is fixed when the
loop starts), record each call's name in the usage set, and run the
per-call `try`.  The `try` covers both the tool execution and the
success-path `chat.sendMessage`: when either throws, control reaches
the `catch`, which sends one `{ error: error.message }` payload message
and takes its reply — so a backend throw on the success-path send is
recorded as an error-payload turn carrying that backend error's
message, and one more send is attempted.  Only a throw from the
catch's own send (or from the extra final-review send) escapes the
loop and is fatal (`Except.error`).  The transcript records the
function-response turns that were successfully delivered. -/
def execBatch (exec : ToolCall → Except String String)
    (script : Nat → BEvent) :
    Nat → ModelReply → List ToolCall → List String → List Turn →
      Except String (Nat × ModelReply × List String × List Turn)
  | k, fr, [], used, tr => .ok (k, fr, used, tr)
  | k, _, call :: rest, used, tr =>
    match exec call with
    | .ok res =>
      match script k with
      | .reply r =>
        execBatch exec script (k + 1) r rest (addTool call.name used)
          (tr ++ [Turn.toolOk call.name res])
      | .fail m =>
        match script (k + 1) with
        | .fail m2 => .error m2
        | .reply r =>
          execBatch exec script (k + 2) r rest (addTool call.name used)
            (tr ++ [Turn.toolError call.name m])
    | .error m =>
      match script k with
      | .fail m2 => .error m2
      | .reply r =>
        execBatch exec script (k + 1) r rest (addTool call.name used)
          (tr ++ [Turn.toolError call.name m])

/-- The `while (finalResponse.functionCalls ...)` loop of
`handleFunctionCalls`: while the current response requests calls,
execute the batch; afterwards, if the new response requests no calls
and at least 3 distinct tools have been recorded, send one extra
request for the final comprehensive review and continue with its
reply; when the current response requests no calls, accept its text. -/
def sessionLoop (exec : ToolCall → Except String String)
    (script : Nat → BEvent) :
    Nat → Nat → ModelReply → List String → List Turn → Outcome
  | 0, _, fr, used, tr =>
    if fr.fcalls = [] then .ok fr.text used tr else .timeout
  | fuel + 1, k, fr, used, tr =>
    if fr.fcalls = [] then .ok fr.text used tr
    else
      match execBatch exec script k fr fr.fcalls used tr with
      | .error m => .fail m
      | .ok (k', fr', used', tr') =>
        if fr'.fcalls = [] ∧ 3 ≤ used'.length then
          match script k' with
          | .fail m => .fail m
          | .reply r2 => sessionLoop exec script fuel (k' + 1) r2 used' tr'
        else sessionLoop exec script fuel k' fr' used' tr'

/-- Embedding of `handleFunctionCalls`: record the user prompt and the
first requested call as the seed history, execute the initial batch
(whose tool names are not recorded in the usage set), send the
follow-up `Now call get_pr_details ...` message, create the usage set
as `initialToolsUsed`, and enter the continuation loop. -/
def runHandleFunctionCalls (exec : ToolCall → Except String String)
    (script : Nat → BEvent) (k : Nat) (resp : ModelReply)
    (promptText : String) (fuel : Nat) : Outcome :=
  let tr0 := Turn.user promptText :: (resp.fcalls.take 1).map Turn.modelCall
  let tr1 := initBatch exec resp.fcalls tr0
  match script k with
  | .fail m => .fail m
  | .reply r1 => sessionLoop exec script fuel (k + 1) r1 initialToolsUsed tr1

/-- Bookkeeping mirror of `execBatch` with no source counterpart: the
index of the next backend interaction after the batch stops, whether it
completes or throws.  It follows exactly the event consumption of
`execBatch` (one send per call, plus the catch's extra send when the
success-path send threw); `execBatchNext_ok` checks the agreement on
the completing case. -/
def execBatchNext (exec : ToolCall → Except String String)
    (script : Nat → BEvent) : Nat → List ToolCall → Nat
  | k, [] => k
  | k, call :: rest =>
    match exec call with
    | .ok _ =>
      match script k with
      | .reply _ => execBatchNext exec script (k + 1) rest
      | .fail _ =>
        match script (k + 1) with
        | .fail _ => k + 2
        | .reply _ => execBatchNext exec script (k + 2) rest
    | .error _ =>
      match script k with
      | .fail _ => k + 1
      | .reply _ => execBatchNext exec script (k + 1) rest

/-- Bookkeeping mirror of `sessionLoop` with no source counterpart: the
index of the next backend interaction after the loop stops (by
accepting, by throwing, or — irrelevantly, since a hung session never
resumes the caller — by running out of fuel). -/
def sessionLoopNext (exec : ToolCall → Except String String)
    (script : Nat → BEvent) :
    Nat → Nat → ModelReply → List String → List Turn → Nat
  | 0, k, _, _, _ => k
  | fuel + 1, k, fr, used, tr =>
    if fr.fcalls = [] then k
    else
      match execBatch exec script k fr fr.fcalls used tr with
      | .error _ => execBatchNext exec script k fr.fcalls
      | .ok (k', fr', used', tr') =>
        if fr'.fcalls = [] ∧ 3 ≤ used'.length then
          match script k' with
          | .fail _ => k' + 1
          | .reply r2 => sessionLoopNext exec script fuel (k' + 1) r2 used' tr'
        else sessionLoopNext exec script fuel k' fr' used' tr'

/-- Bookkeeping mirror of `runHandleFunctionCalls`: the index of the
next backend interaction after the session stops.  Used by the forcing
ladder to resume at the right interaction when a promoted session
throws. -/
def runHandleFunctionCallsNext (exec : ToolCall → Except String String)
    (script : Nat → BEvent) (k : Nat) (resp : ModelReply)
    (promptText : String) (fuel : Nat) : Nat :=
  match script k with
  | .fail _ => k + 1
  | .reply r1 =>
    sessionLoopNext exec script fuel (k + 1) r1 initialToolsUsed
      (initBatch exec resp.fcalls
        (Turn.user promptText :: (resp.fcalls.take 1).map Turn.modelCall))

/-- The forcing ladder of `reviewPullRequest`: strategies `i = 0, 1, 2`
are independent single-shot attempts, each consuming the next backend
interaction `k`; the whole attempt — including the promoted
`handleFunctionCalls` run, whose `return await` sits inside the
strategy's `try` — is covered by the strategy's `catch`.  So a thrown
error during the strategy's own `generateContent`, or anywhere in the
promoted session, is caught and the next strategy is tried (resuming at
the next unconsumed backend interaction); a promoted session that
completes returns its result; after three attempts without a returned
result the diagnostic placeholder is returned as a successful
result. -/
def forceStrategies (exec : ToolCall → Except String String)
    (script : Nat → BEvent) (prUrl : String) (fuel : Nat) (k i : Nat) :
    Outcome :=
  if 3 ≤ i then .ok degradedMessage [] []
  else
    match script k with
    | .fail _ => forceStrategies exec script prUrl fuel (k + 1) (i + 1)
    | .reply r =>
      if r.fcalls = [] then forceStrategies exec script prUrl fuel (k + 1) (i + 1)
      else
        match runHandleFunctionCalls exec script (k + 1) r
            (strategyText prUrl i) fuel with
        | .fail _ =>
          forceStrategies exec script prUrl fuel
            (runHandleFunctionCallsNext exec script (k + 1) r
              (strategyText prUrl i) fuel) (i + 1)
        | .ok msg used tr => .ok msg used tr
        | .timeout => .timeout
  termination_by 3 - i
  decreasing_by
    all_goals omega

/-- Embedding of `reviewPullRequest`: send the initial prompt (backend
interaction 0); on requested calls enter `handleFunctionCalls`; on a
substantive direct answer (length at least 50) return it; otherwise
enter the forcing ladder.  A backend error propagates (the surrounding
`catch` rethrows). -/
def reviewPullRequest (exec : ToolCall → Except String String)
    (script : Nat → BEvent) (prUrl : String) (fuel : Nat) : Outcome :=
  match script 0 with
  | .fail m => .fail m
  | .reply r =>
    if r.fcalls ≠ [] then
      runHandleFunctionCalls exec script 1 r (initialPrompt prUrl) fuel
    else if r.text.length < 50 then
      forceStrategies exec script prUrl fuel 1 0
    else .ok r.text [] []

/-! ## Concrete fixtures used by witnesses and counterexamples -/

/-- An Octokit oracle whose every method succeeds. -/
def sampleOctokit : Octokit where
  pullsGet := fun _ _ _ => .ok "pr-info"
  listFiles := fun _ _ _ => .ok []
  listCommits := fun _ _ _ => .ok "commits"
  listReviews := fun _ _ _ => .ok "reviews"
  createReview := fun _ _ _ _ =>
    .ok ⟨7, "https://github.com/acme/widget/pull/42#pullrequestreview-7"⟩

/-- A tool oracle whose every call succeeds. -/
def execOkW : ToolCall → Except String String := fun _ => .ok "ok"

/-- A tool oracle whose every call throws. -/
def execFailW : ToolCall → Except String String := fun _ => .error "boom"

/-- A backend script that always replies with plain text. -/
def scriptReplyW : Nat → BEvent := fun _ => .reply ⟨[], "done"⟩

/-- Backend script: the initial response requests `get_review_prompts`;
every later interaction replies with a terminal text answer. -/
def scriptC1 : Nat → BEvent := fun k =>
  if k = 0 then .reply ⟨[⟨"get_review_prompts", ""⟩], ""⟩
  else .reply
    ⟨[], "This pull request looks good overall; the changes are small and well scoped."⟩

/-- Backend script: empty first answer, a thrown error on the first
forcing strategy, a promoted tool request on the second, then text. -/
def scriptC2 : Nat → BEvent := fun k =>
  if k = 0 then .reply ⟨[], "hi"⟩
  else if k = 1 then .fail "backend transient error"
  else if k = 2 then .reply ⟨[⟨"get_pr_details", "url"⟩], ""⟩
  else .reply ⟨[], "final review text"⟩

/-- Backend script: empty first answer and no forcing strategy ever
eliciting a tool request. -/
def scriptC2b : Nat → BEvent := fun k =>
  if k = 0 then .reply ⟨[], "hi"⟩ else .reply ⟨[], "still no tools"⟩

/-- Backend script: empty first answer; the first forcing strategy
elicits a tool request, but the promoted session's follow-up backend
call throws; every later interaction replies with non-eliciting
text. -/
def scriptC2c : Nat → BEvent := fun k =>
  if k = 0 then .reply ⟨[], "hi"⟩
  else if k = 1 then .reply ⟨[⟨"get_pr_details", "u"⟩], ""⟩
  else if k = 2 then .fail "backend down"
  else .reply ⟨[], "still nothing"⟩

/-- Whether a backend event fails to elicit a tool request during the
forcing ladder (a thrown error, which is caught, or a reply whose
`functionCalls` list is empty). -/
def noPromote : BEvent → Prop
  | .fail _ => True
  | .reply r => r.fcalls = []

/-! ## Helper lemmas for digits and URL parsing -/

theorem digitVal_digitChar {d : Nat} (h : d < 10) :
    digitVal (digitChar d) = d := by
  interval_cases d <;> decide

theorem isDigit_digitChar {d : Nat} (h : d < 10) :
    (digitChar d).isDigit = true := by
  interval_cases d <;> decide

theorem natRepr_ne_nil (n : Nat) : natRepr n ≠ [] := by
  rw [natRepr]
  split <;> simp

theorem natRepr_digits (n : Nat) : ∀ c ∈ natRepr n, c.isDigit = true := by
  induction n using Nat.strong_induction_on with
  | _ n ih =>
    rw [natRepr]
    split
    next h => simp [isDigit_digitChar h]
    next h =>
      intro c hc
      rcases List.mem_append.1 hc with h1 | h1
      · exact ih (n / 10) (Nat.div_lt_self (by omega) (by omega)) c h1
      · simp at h1
        subst h1
        exact isDigit_digitChar (Nat.mod_lt _ (by omega))

theorem digitsToNat_append_singleton (ds : List Char) (c : Char) :
    digitsToNat (ds ++ [c]) = digitsToNat ds * 10 + digitVal c := by
  simp [digitsToNat, List.foldl_append]

theorem digitsToNat_natRepr (n : Nat) : digitsToNat (natRepr n) = n := by
  induction n using Nat.strong_induction_on with
  | _ n ih =>
    rw [natRepr]
    split
    next h => simp [digitsToNat, digitVal_digitChar h]
    next h =>
      rw [digitsToNat_append_singleton,
        ih (n / 10) (Nat.div_lt_self (by omega) (by omega)),
        digitVal_digitChar (Nat.mod_lt _ (by omega))]
      omega

theorem dropLit_self_append (lit rest : List Char) :
    dropLit lit (lit ++ rest) = some rest := by
  induction lit with
  | nil => rfl
  | cons c cs ih => simp [dropLit, ih]

theorem takeWhile_all {p : Char → Bool} :
    ∀ xs : List Char, (∀ x ∈ xs, p x = true) → xs.takeWhile p = xs := by
  intro xs h
  induction xs with
  | nil => rfl
  | cons c cs ih =>
    simp [List.takeWhile_cons, h c (by simp), ih (fun x hx => h x (by simp [hx]))]

theorem takeWhile_append_stop {p : Char → Bool} :
    ∀ xs : List Char, ∀ y ys, (∀ x ∈ xs, p x = true) → p y = false →
      (xs ++ y :: ys).takeWhile p = xs := by
  intro xs y ys h hy
  induction xs with
  | nil => simp [List.takeWhile_cons, hy]
  | cons c cs ih =>
    simp [List.cons_append, List.takeWhile_cons, h c (by simp),
      ih (fun x hx => h x (by simp [hx]))]

theorem dropWhile_append_stop {p : Char → Bool} :
    ∀ xs : List Char, ∀ y ys, (∀ x ∈ xs, p x = true) → p y = false →
      (xs ++ y :: ys).dropWhile p = y :: ys := by
  intro xs y ys h hy
  induction xs with
  | nil => simp [List.dropWhile_cons, hy]
  | cons c cs ih =>
    simp [List.cons_append, List.dropWhile_cons, h c (by simp),
      ih (fun x hx => h x (by simp [hx]))]

theorem searchPR_cons_of_fail (c : Char) (cs : List Char)
    (h : matchHere (c :: cs) = none) : searchPR (c :: cs) = searchPR cs := by
  simp [searchPR, h]

theorem searchPR_cons_here (c : Char) (cs : List Char) (r : PRRef)
    (h : matchHere (c :: cs) = some r) : searchPR (c :: cs) = some r := by
  simp [searchPR, h]

theorem matchHere_head_ne (c : Char) (cs : List Char) (h : ¬('g' = c)) :
    matchHere (c :: cs) = none := by
  have hg : "github.com/".data = 'g' :: "ithub.com/".data := rfl
  simp only [matchHere, hg, dropLit, if_neg h]

theorem matchHere_lit (tail : List Char) :
    matchHere ("github.com/".data ++ tail) = matchTail tail := by
  unfold matchHere
  rw [dropLit_self_append]

theorem matchTail_canonical (owner repo ds : List Char)
    (ho : owner ≠ []) (hr : repo ≠ []) (ho' : '/' ∉ owner) (hr' : '/' ∉ repo)
    (hd : ds ≠ []) (hdd : ∀ c ∈ ds, c.isDigit = true) :
    matchTail (owner ++ ('/' :: (repo ++ ('/' :: 'p' :: 'u' :: 'l' :: 'l' :: '/' :: ds))))
      = some ⟨⟨owner⟩, ⟨repo⟩, digitsToNat ds⟩ := by
  have po : ∀ x ∈ owner, (x != '/') = true := by
    intro x hx
    simp only [bne_iff_ne, ne_eq]
    exact fun e => ho' (e ▸ hx)
  have pr : ∀ x ∈ repo, (x != '/') = true := by
    intro x hx
    simp only [bne_iff_ne, ne_eq]
    exact fun e => hr' (e ▸ hx)
  have hslash : (('/' : Char) != '/') = false := by decide
  have e1 : (owner ++ ('/' :: (repo
        ++ ('/' :: 'p' :: 'u' :: 'l' :: 'l' :: '/' :: ds)))).takeWhile
      (fun c => c != '/') = owner :=
    takeWhile_append_stop owner '/' _ po hslash
  have e2 : dropLit ['/']
      ((owner ++ ('/' :: (repo
          ++ ('/' :: 'p' :: 'u' :: 'l' :: 'l' :: '/' :: ds)))).dropWhile
        (fun c => c != '/'))
      = some (repo ++ ('/' :: 'p' :: 'u' :: 'l' :: 'l' :: '/' :: ds)) := by
    rw [dropWhile_append_stop owner '/' _ po hslash]
    exact dropLit_self_append ['/'] _
  have e3 : (repo ++ ('/' :: 'p' :: 'u' :: 'l' :: 'l' :: '/' :: ds)).takeWhile
      (fun c => c != '/') = repo :=
    takeWhile_append_stop repo '/' _ pr hslash
  have e4 : dropLit ['/', 'p', 'u', 'l', 'l', '/']
      ((repo ++ ('/' :: 'p' :: 'u' :: 'l' :: 'l' :: '/' :: ds)).dropWhile
        (fun c => c != '/'))
      = some ds := by
    rw [dropWhile_append_stop repo '/' _ pr hslash]
    exact dropLit_self_append ['/', 'p', 'u', 'l', 'l', '/'] ds
  have e5 : ds.takeWhile Char.isDigit = ds := takeWhile_all ds hdd
  simp only [matchTail, e1, e2, e3, e4, e5, if_neg ho, if_neg hr, if_neg hd]

theorem parsePRUrl_canonical (owner repo : List Char) (n : Nat)
    (ho : owner ≠ []) (hr : repo ≠ []) (ho' : '/' ∉ owner) (hr' : '/' ∉ repo) :
    parsePRUrl ⟨"https://github.com/".data ++ (owner ++ ('/' :: (repo
        ++ ('/' :: 'p' :: 'u' :: 'l' :: 'l' :: '/' :: natRepr n))))⟩
      = some ⟨⟨owner⟩, ⟨repo⟩, n⟩ := by
  have hm : matchTail (owner ++ ('/' :: (repo
        ++ ('/' :: 'p' :: 'u' :: 'l' :: 'l' :: '/' :: natRepr n))))
      = some ⟨⟨owner⟩, ⟨repo⟩, n⟩ := by
    rw [matchTail_canonical owner repo (natRepr n) ho hr ho' hr'
      (natRepr_ne_nil n) (natRepr_digits n), digitsToNat_natRepr]
  have hsplit : "https://github.com/".data ++ (owner ++ ('/' :: (repo
        ++ ('/' :: 'p' :: 'u' :: 'l' :: 'l' :: '/' :: natRepr n))))
      = 'h' :: 't' :: 't' :: 'p' :: 's' :: ':' :: '/' :: '/' ::
        ("github.com/".data ++ (owner ++ ('/' :: (repo
          ++ ('/' :: 'p' :: 'u' :: 'l' :: 'l' :: '/' :: natRepr n))))) := rfl
  show searchPR ("https://github.com/".data ++ (owner ++ ('/' :: (repo
    ++ ('/' :: 'p' :: 'u' :: 'l' :: 'l' :: '/' :: natRepr n))))) = _
  rw [hsplit]
  rw [searchPR_cons_of_fail 'h' _ (matchHere_head_ne 'h' _ (by decide))]
  rw [searchPR_cons_of_fail 't' _ (matchHere_head_ne 't' _ (by decide))]
  rw [searchPR_cons_of_fail 't' _ (matchHere_head_ne 't' _ (by decide))]
  rw [searchPR_cons_of_fail 'p' _ (matchHere_head_ne 'p' _ (by decide))]
  rw [searchPR_cons_of_fail 's' _ (matchHere_head_ne 's' _ (by decide))]
  rw [searchPR_cons_of_fail ':' _ (matchHere_head_ne ':' _ (by decide))]
  rw [searchPR_cons_of_fail '/' _ (matchHere_head_ne '/' _ (by decide))]
  rw [searchPR_cons_of_fail '/' _ (matchHere_head_ne '/' _ (by decide))]
  have hmh : matchHere ('g' :: ("ithub.com/".data ++ (owner ++ ('/' :: (repo
      ++ ('/' :: 'p' :: 'u' :: 'l' :: 'l' :: '/' :: natRepr n))))))
      = some ⟨⟨owner⟩, ⟨repo⟩, n⟩ := by
    have hc : 'g' :: ("ithub.com/".data ++ (owner ++ ('/' :: (repo
        ++ ('/' :: 'p' :: 'u' :: 'l' :: 'l' :: '/' :: natRepr n)))))
        = "github.com/".data ++ (owner ++ ('/' :: (repo
          ++ ('/' :: 'p' :: 'u' :: 'l' :: 'l' :: '/' :: natRepr n)))) := rfl
    rw [hc, matchHere_lit, hm]
  show searchPR ('g' :: ("ithub.com/".data ++ (owner ++ ('/' :: (repo
    ++ ('/' :: 'p' :: 'u' :: 'l' :: 'l' :: '/' :: natRepr n)))))) = _
  rw [searchPR_cons_here _ _ _ hmh]

/-! ## Claim C6: PR URL parse / reconstruct round-trip -/

/-- C6 (counterexample): the claim as stated fails — the parser rejects
a valid PR URL of the form `https://<host>/<owner>/<repo>/pull/<n>`
whenever the host is not github.com, extracting nothing (the thrown
`Invalid GitHub PR URL format` error, here `none`). -/
theorem C6_counterexample :
    parsePRUrl "https://gitlab.com/acme/widget/pull/42" = none := by decide

/-- C6 (amended): for every PR URL on the github.com host,
`https://github.com/<owner>/<repo>/pull/<n>` with nonempty slash-free
owner and repo segments and a canonically rendered pull number, parsing
extracts exactly the components, and reconstructing the path from the
parsed components yields exactly the original URL's path segment. -/
theorem C6_parse_roundtrip (owner repo : List Char) (n : Nat)
    (ho : owner ≠ []) (hr : repo ≠ []) (ho' : '/' ∉ owner) (hr' : '/' ∉ repo) :
    parsePRUrl ⟨"https://github.com/".data ++ (owner ++ ('/' :: (repo
        ++ ('/' :: 'p' :: 'u' :: 'l' :: 'l' :: '/' :: natRepr n))))⟩
      = some ⟨⟨owner⟩, ⟨repo⟩, n⟩
    ∧ reconstructPath ⟨⟨owner⟩, ⟨repo⟩, n⟩
      = owner ++ ('/' :: (repo
          ++ ('/' :: 'p' :: 'u' :: 'l' :: 'l' :: '/' :: natRepr n))) := by
  refine ⟨parsePRUrl_canonical owner repo n ho hr ho' hr', ?_⟩
  simp [reconstructPath, List.append_assoc]

/-- C6 witness: the amended theorem at the concrete URL
`https://github.com/acme/widget/pull/42`. -/
theorem C6_witness :
    parsePRUrl ⟨"https://github.com/".data ++ ("acme".data ++ ('/' :: ("widget".data
        ++ ('/' :: 'p' :: 'u' :: 'l' :: 'l' :: '/' :: natRepr 42))))⟩
      = some ⟨"acme", "widget", 42⟩
    ∧ reconstructPath ⟨"acme", "widget", 42⟩
      = "acme".data ++ ('/' :: ("widget".data
          ++ ('/' :: 'p' :: 'u' :: 'l' :: 'l' :: '/' :: natRepr 42))) :=
  C6_parse_roundtrip "acme".data "widget".data 42 (by decide) (by decide)
    (by decide) (by decide)

/-! ## Claim C7: missing required arguments -/

/-- C7 (confirmed): a tool invocation with a required argument absent
(or empty — JavaScript falsy) fails with the structured
missing-argument error before any collaborator call is attempted: the
remote-call log is empty. -/
theorem C7_missing_arg_no_calls (ok : Octokit) (args args2 : ToolArgs)
    (h1 : falsy args.pr_url = true)
    (h2 : falsy args2.pr_url = true ∨ falsy args2.body = true) :
    handleGetPRFiles ok args = (.error "PR URL is required", [])
    ∧ handlePostPRReview ok args2
      = (.error "PR URL and body are required", []) := by
  constructor
  · simp [handleGetPRFiles, h1]
  · rcases h2 with h | h <;> simp [handlePostPRReview, h]

/-- C7 witness: both handlers invoked with no arguments at all. -/
theorem C7_witness :
    handleGetPRFiles sampleOctokit {} = (.error "PR URL is required", [])
    ∧ handlePostPRReview sampleOctokit {}
      = (.error "PR URL and body are required", []) :=
  C7_missing_arg_no_calls sampleOctokit {} {} rfl (Or.inl rfl)

/-! ## Claim C8: malformed PR URL fails before any remote call -/

/-- C8 (confirmed): a present but non-conforming `pr_url` makes both a
details-fetching tool and the review-posting tool fail with the format
error before any remote request: the remote-call log is empty. -/
theorem C8_bad_url_no_remote (ok : Octokit) (url b : String)
    (hu : url ≠ "") (hb : b ≠ "") (hparse : parsePRUrl url = none) :
    handleGetPRFiles ok { pr_url := some url }
      = (.error "Invalid GitHub PR URL format", [])
    ∧ handlePostPRReview ok { pr_url := some url, body := some b }
      = (.error "Invalid GitHub PR URL format", []) := by
  constructor
  · simp [handleGetPRFiles, falsy, hu, getPRDetails, hparse]
  · simp [handlePostPRReview, falsy, hu, hb, hparse]

/-- C8 witness. -/
theorem C8_witness :
    handleGetPRFiles sampleOctokit { pr_url := some "not a pr url" }
      = (.error "Invalid GitHub PR URL format", [])
    ∧ handlePostPRReview sampleOctokit
        { pr_url := some "not a pr url", body := some "LGTM" }
      = (.error "Invalid GitHub PR URL format", []) :=
  C8_bad_url_no_remote sampleOctokit "not a pr url" "LGTM"
    (by decide) (by decide) (by decide)

/-! ## Claim C9: APPROVE review posts exactly one creation call -/

/-- C9 (confirmed): posting a review with event `APPROVE` and no
`comments` argument performs exactly one review-creation call against
the platform, carrying the empty comments list and the given event; no
retry happens (the log is the one-element list). -/
theorem C9_approve_one_call (ok : Octokit) (url b : String) (pr : PRRef)
    (hb : b ≠ "") (hparse : parsePRUrl url = some pr) :
    (handlePostPRReview ok
        { pr_url := some url, body := some b, event := some "APPROVE" }).2
      = [.createReview pr.owner pr.repo pr.pull_number ⟨b, "APPROVE", []⟩] := by
  have hu : url ≠ "" := by
    intro e
    subst e
    have hnone : parsePRUrl "" = none := by decide
    rw [hnone] at hparse
    cases hparse
  simp only [handlePostPRReview, falsy, hu, hb]
  simp only [Option.getD_some, hparse]
  cases hcr : ok.createReview pr.owner pr.repo pr.pull_number ⟨b, "APPROVE", []⟩ with
  | error m => simp [hcr]
  | ok res => simp [hcr]

/-- C9 witness. -/
theorem C9_witness :
    (handlePostPRReview sampleOctokit
        { pr_url := some "https://github.com/acme/widget/pull/42",
          body := some "LGTM", event := some "APPROVE" }).2
      = [.createReview "acme" "widget" 42 ⟨"LGTM", "APPROVE", []⟩] :=
  C9_approve_one_call sampleOctokit "https://github.com/acme/widget/pull/42"
    "LGTM" ⟨"acme", "widget", 42⟩ (by decide) (by decide)

/-! ## Claim C10: file-content fetch null vs propagate -/

/-- C10 (confirmed): the file-content fetch returns null (`none`) when
the platform reports 404 or when the path resolves to something other
than a regular file; an error with any other status propagates; a
regular file's content is returned. -/
theorem C10_get_file_content (d : ContentData) (e : ApiError) :
    (e.status = 404 → getFileContent (.error e) = .ok none)
    ∧ (d.type ≠ "file" → getFileContent (.ok d) = .ok none)
    ∧ (e.status ≠ 404 → getFileContent (.error e) = .error e)
    ∧ (d.type = "file" → getFileContent (.ok d) = .ok (some d.content)) := by
  refine ⟨fun h => ?_, fun h => ?_, fun h => ?_, fun h => ?_⟩ <;>
    simp [getFileContent, h]

/-- C10 witness. -/
theorem C10_witness :
    getFileContent (.error ⟨404, "Not Found"⟩) = .ok none
    ∧ getFileContent (.ok ⟨"dir", ""⟩) = .ok none
    ∧ getFileContent (.error ⟨500, "server error"⟩)
      = .error ⟨500, "server error"⟩
    ∧ getFileContent (.ok ⟨"file", "content"⟩) = .ok (some "content") :=
  ⟨(C10_get_file_content ⟨"dir", ""⟩ ⟨404, "Not Found"⟩).1 rfl,
   (C10_get_file_content ⟨"dir", ""⟩ ⟨404, "Not Found"⟩).2.1 (by decide),
   (C10_get_file_content ⟨"dir", ""⟩ ⟨500, "server error"⟩).2.2.1 (by decide),
   (C10_get_file_content ⟨"file", "content"⟩ ⟨404, "x"⟩).2.2.2 rfl⟩

/-! ## Claim C4: unknown tool -/

/-- C4 (counterexample): the protocol-level error code the immediate
caller receives for an unknown tool is `InternalError` — the same code
an ordinary handler failure receives — because the dispatch `catch`
re-wraps the thrown `MethodNotFound` error.  The code therefore does
not distinguish the unknown-tool failure from other failures. -/
theorem C4_counterexample :
    callToolDispatch (fun _ => .error "boom") "nonexistent_tool"
      = .error ⟨.InternalError,
          "Tool execution failed: Unknown tool: nonexistent_tool"⟩
    ∧ callToolDispatch (fun _ => .error "boom") "get_pr_files"
      = .error ⟨.InternalError, "Tool execution failed: boom"⟩ :=
  ⟨rfl, rfl⟩

/-- C4 (amended): an unknown tool name is never a silent no-op — the
dispatch raises an `McpError` — but after the `catch` re-wrap the
immediate caller receives the code `InternalError` (not a code
distinguishing unknown tools), with a message naming the unknown
tool. -/
theorem C4_unknown_tool (handler : String → Except String String)
    (name : String) (h : name ∉ toolNames) :
    callToolDispatch handler name
      = .error ⟨.InternalError,
          "Tool execution failed: " ++ ("Unknown tool: " ++ name)⟩ := by
  simp [callToolDispatch, h, thrownMessage]

/-- C4 witness. -/
theorem C4_witness :
    callToolDispatch (fun _ => .ok "") "does_not_exist"
      = .error ⟨.InternalError,
          "Tool execution failed: " ++ ("Unknown tool: " ++ "does_not_exist")⟩ :=
  C4_unknown_tool (fun _ => .ok "") "does_not_exist" (by decide)

/-! ## Helper lemmas about the orchestrator -/

theorem sessionLoop_done (exec : ToolCall → Except String String)
    (script : Nat → BEvent) (fuel k : Nat) (fr : ModelReply)
    (used : List String) (tr : List Turn) (h : fr.fcalls = []) :
    sessionLoop exec script fuel k fr used tr = .ok fr.text used tr := by
  cases fuel <;> rw [sessionLoop, if_pos h]

theorem forceStrategies_exhaust (exec : ToolCall → Except String String)
    (script : Nat → BEvent) (prUrl : String) (fuel k : Nat) :
    forceStrategies exec script prUrl fuel k 3 = .ok degradedMessage [] [] := by
  rw [forceStrategies]
  simp

theorem forceStrategies_skip (exec : ToolCall → Except String String)
    (script : Nat → BEvent) (prUrl : String) (fuel k i : Nat)
    (hi : i < 3) (hn : noPromote (script k)) :
    forceStrategies exec script prUrl fuel k i
      = forceStrategies exec script prUrl fuel (k + 1) (i + 1) := by
  rw [forceStrategies, if_neg (by omega)]
  cases hs : script k with
  | fail m => rfl
  | reply r =>
    have hr : r.fcalls = [] := by
      rw [hs] at hn
      simpa [noPromote] using hn
    simp [hr]

theorem forceStrategies_promote_ok (exec : ToolCall → Except String String)
    (script : Nat → BEvent) (prUrl : String) (fuel k i : Nat)
    (hi : i < 3) (r : ModelReply)
    (hs : script k = .reply r) (hne : r.fcalls ≠ [])
    (msg : String) (u : List String) (t : List Turn)
    (hrun : runHandleFunctionCalls exec script (k + 1) r
        (strategyText prUrl i) fuel = .ok msg u t) :
    forceStrategies exec script prUrl fuel k i = .ok msg u t := by
  rw [forceStrategies, if_neg (by omega), hs]
  simp [hne, hrun]

theorem forceStrategies_promote_fail (exec : ToolCall → Except String String)
    (script : Nat → BEvent) (prUrl : String) (fuel k i : Nat)
    (hi : i < 3) (r : ModelReply)
    (hs : script k = .reply r) (hne : r.fcalls ≠ []) (m : String)
    (hrun : runHandleFunctionCalls exec script (k + 1) r
        (strategyText prUrl i) fuel = .fail m) :
    forceStrategies exec script prUrl fuel k i
      = forceStrategies exec script prUrl fuel
          (runHandleFunctionCallsNext exec script (k + 1) r
            (strategyText prUrl i) fuel) (i + 1) := by
  rw [forceStrategies, if_neg (by omega), hs]
  simp [hne, hrun]

theorem forceStrategies_ne_fail (exec : ToolCall → Except String String)
    (script : Nat → BEvent) (prUrl : String) (fuel : Nat) :
    ∀ (rem k i : Nat), 3 - i ≤ rem →
      ∀ m, forceStrategies exec script prUrl fuel k i ≠ .fail m := by
  intro rem
  induction rem with
  | zero =>
    intro k i hrem m h
    rw [forceStrategies, if_pos (by omega)] at h
    cases h
  | succ rem ih =>
    intro k i hrem m h
    rw [forceStrategies] at h
    split at h
    · cases h
    next hi =>
      split at h
      next => exact ih (k + 1) (i + 1) (by omega) m h
      next r =>
        split at h
        · exact ih (k + 1) (i + 1) (by omega) m h
        · split at h
          next => exact ih _ (i + 1) (by omega) m h
          next => cases h
          next => cases h

theorem execBatch_ok_of_replies (exec : ToolCall → Except String String)
    (script : Nat → BEvent) (hs : ∀ j, (script j).isFail = false) :
    ∀ (pending : List ToolCall) (k : Nat) (fr : ModelReply)
      (used : List String) (tr : List Turn),
      ∃ out, execBatch exec script k fr pending used tr = .ok out := by
  intro pending
  induction pending with
  | nil =>
    intro k fr used tr
    exact ⟨(k, fr, used, tr), rfl⟩
  | cons call rest ih =>
    intro k fr used tr
    cases hsk : script k with
    | fail m =>
      have hcontra := hs k
      rw [hsk] at hcontra
      simp [BEvent.isFail] at hcontra
    | reply r =>
      cases he : exec call with
      | ok res =>
        simp only [execBatch, he, hsk]
        exact ih (k + 1) r _ _
      | error m =>
        simp only [execBatch, he, hsk]
        exact ih (k + 1) r _ _

theorem execBatchNext_ok (exec : ToolCall → Except String String)
    (script : Nat → BEvent) :
    ∀ (pending : List ToolCall) (k : Nat) (fr : ModelReply)
      (used : List String) (tr : List Turn) (k1 : Nat) (fr1 : ModelReply)
      (u1 : List String) (t1 : List Turn),
      execBatch exec script k fr pending used tr = .ok (k1, fr1, u1, t1) →
      execBatchNext exec script k pending = k1 := by
  intro pending
  induction pending with
  | nil =>
    intro k fr used tr k1 fr1 u1 t1 h
    rw [execBatch] at h
    cases h
    rw [execBatchNext]
  | cons call rest ih =>
    intro k fr used tr k1 fr1 u1 t1 h
    simp only [execBatch] at h
    cases he : exec call with
    | ok res =>
      rw [he] at h
      cases hsk : script k with
      | reply r =>
        rw [hsk] at h
        simp only [execBatchNext, he, hsk]
        exact ih _ _ _ _ _ _ _ _ h
      | fail m =>
        rw [hsk] at h
        cases hsk2 : script (k + 1) with
        | fail m2 =>
          rw [hsk2] at h
          simp at h
        | reply r =>
          rw [hsk2] at h
          simp only [execBatchNext, he, hsk, hsk2]
          exact ih _ _ _ _ _ _ _ _ h
    | error m =>
      rw [he] at h
      cases hsk : script k with
      | fail m2 =>
        rw [hsk] at h
        simp at h
      | reply r =>
        rw [hsk] at h
        simp only [execBatchNext, he, hsk]
        exact ih _ _ _ _ _ _ _ _ h

theorem sessionLoop_ne_fail (exec : ToolCall → Except String String)
    (script : Nat → BEvent) (hs : ∀ j, (script j).isFail = false) :
    ∀ (fuel k : Nat) (fr : ModelReply) (used : List String) (tr : List Turn)
      (m : String),
      sessionLoop exec script fuel k fr used tr ≠ .fail m := by
  intro fuel
  induction fuel with
  | zero =>
    intro k fr used tr m h
    rw [sessionLoop] at h
    split at h <;> cases h
  | succ fuel ih =>
    intro k fr used tr m h
    rw [sessionLoop] at h
    split at h
    · cases h
    · split at h
      next mm heq =>
        obtain ⟨out, hout⟩ :=
          execBatch_ok_of_replies exec script hs fr.fcalls k fr used tr
        rw [hout] at heq
        cases heq
      next k1 fr1 u1 t1 heq =>
        split at h
        · split at h
          next mm heq2 =>
            have hcontra := hs k1
            rw [heq2] at hcontra
            simp [BEvent.isFail] at hcontra
          next r2 heq2 => exact ih _ _ _ _ _ h
        · exact ih _ _ _ _ _ h

theorem addTool_subset (n : String) (used : List String) :
    used ⊆ addTool n used := by
  intro a ha
  unfold addTool
  split
  · exact ha
  · exact List.mem_cons_of_mem _ ha

theorem execBatch_used_subset (exec : ToolCall → Except String String)
    (script : Nat → BEvent) :
    ∀ (pending : List ToolCall) (k : Nat) (fr : ModelReply)
      (used : List String) (tr : List Turn) (k1 : Nat) (fr1 : ModelReply)
      (u1 : List String) (t1 : List Turn),
      execBatch exec script k fr pending used tr = .ok (k1, fr1, u1, t1) →
      used ⊆ u1 := by
  intro pending
  induction pending with
  | nil =>
    intro k fr used tr k1 fr1 u1 t1 h
    rw [execBatch] at h
    cases h
    exact fun a ha => ha
  | cons call rest ih =>
    intro k fr used tr k1 fr1 u1 t1 h
    simp only [execBatch] at h
    cases he : exec call with
    | ok res =>
      rw [he] at h
      cases hsk : script k with
      | reply r =>
        rw [hsk] at h
        exact (addTool_subset call.name used).trans (ih _ _ _ _ _ _ _ _ h)
      | fail m =>
        rw [hsk] at h
        cases hsk2 : script (k + 1) with
        | fail m2 =>
          rw [hsk2] at h
          simp at h
        | reply r =>
          rw [hsk2] at h
          exact (addTool_subset call.name used).trans (ih _ _ _ _ _ _ _ _ h)
    | error m =>
      rw [he] at h
      cases hsk : script k with
      | fail m2 =>
        rw [hsk] at h
        simp at h
      | reply r =>
        rw [hsk] at h
        exact (addTool_subset call.name used).trans (ih _ _ _ _ _ _ _ _ h)

theorem sessionLoop_used_subset (exec : ToolCall → Except String String)
    (script : Nat → BEvent) :
    ∀ (fuel k : Nat) (fr : ModelReply) (used : List String) (tr : List Turn)
      (msg : String) (u2 : List String) (t2 : List Turn),
      sessionLoop exec script fuel k fr used tr = .ok msg u2 t2 →
      used ⊆ u2 := by
  intro fuel
  induction fuel with
  | zero =>
    intro k fr used tr msg u2 t2 h
    rw [sessionLoop] at h
    split at h
    · cases h
      exact fun a ha => ha
    · cases h
  | succ fuel ih =>
    intro k fr used tr msg u2 t2 h
    rw [sessionLoop] at h
    split at h
    · cases h
      exact fun a ha => ha
    · split at h
      next m heq => cases h
      next k1 fr1 u1 t1 heq =>
        have hsub := execBatch_used_subset exec script fr.fcalls k fr used tr
          k1 fr1 u1 t1 heq
        split at h
        · split at h
          next mm heq2 => cases h
          next r2 heq2 => exact hsub.trans (ih _ _ _ _ _ _ _ h)
        · exact hsub.trans (ih _ _ _ _ _ _ _ h)

/-! ## Claim C1: minimum-tool-usage gate -/

/-- C1 (counterexample): a session reaches DONE via the normal
(non-forced) path having recorded only one distinct tool, and the
terminal text answer offered while fewer than 3 distinct tools were
recorded is accepted immediately — the returned message is exactly the
offered answer, with no further round. -/
theorem C1_counterexample :
    reviewPullRequest execOkW scriptC1 "https://github.com/acme/widget/pull/42" 5
      = .ok "This pull request looks good overall; the changes are small and well scoped."
          ["get_review_prompts"]
          [.user (initialPrompt "https://github.com/acme/widget/pull/42"),
           .modelCall ⟨"get_review_prompts", ""⟩,
           .toolOk "get_review_prompts" "ok"]
    ∧ (["get_review_prompts"] : List String).length < 3 :=
  ⟨by decide, by decide⟩

/-- C1 (amended): the gate is the reverse of the claimed one.  After a
batch completes and the backend offers a terminal answer (no further
function calls), the orchestrator accepts that answer immediately when
fewer than 3 distinct tools are recorded; only when at least 3 distinct
tools are recorded does it issue one extra backend round (requesting
the final comprehensive review) before continuing.  Consequently a
session can reach DONE via the normal path with a tool-usage set of
size 1. -/
theorem C1_gate (exec : ToolCall → Except String String)
    (script : Nat → BEvent) (fuel k : Nat) (fr : ModelReply)
    (used : List String) (tr : List Turn) (k' : Nat) (fr' : ModelReply)
    (used' : List String) (tr' : List Turn)
    (hne : fr.fcalls ≠ [])
    (hb : execBatch exec script k fr fr.fcalls used tr = .ok (k', fr', used', tr'))
    (hdone : fr'.fcalls = []) :
    sessionLoop exec script (fuel + 1) k fr used tr
      = if 3 ≤ used'.length then
          match script k' with
          | .fail m => Outcome.fail m
          | .reply r2 => sessionLoop exec script fuel (k' + 1) r2 used' tr'
        else Outcome.ok fr'.text used' tr' := by
  rw [sessionLoop, if_neg hne, hb]
  show (if fr'.fcalls = [] ∧ 3 ≤ used'.length then
      match script k' with
      | BEvent.fail m => Outcome.fail m
      | BEvent.reply r2 => sessionLoop exec script fuel (k' + 1) r2 used' tr'
    else sessionLoop exec script fuel k' fr' used' tr') = _
  by_cases h3 : 3 ≤ used'.length
  · rw [if_pos ⟨hdone, h3⟩, if_pos h3]
  · rw [if_neg (fun hc => h3 hc.2), if_neg h3]
    exact sessionLoop_done exec script fuel k' fr' used' tr' hdone

/-- C1 witness: a batch that leaves 2 distinct tools recorded is
followed by immediate acceptance of the offered text. -/
theorem C1_witness :
    sessionLoop execOkW scriptReplyW 5 0
        ⟨[⟨"analyze_code_quality", "args"⟩], ""⟩ initialToolsUsed []
      = .ok "done" ["analyze_code_quality", "get_review_prompts"]
          [.toolOk "analyze_code_quality" "ok"] := by
  have h := C1_gate execOkW scriptReplyW 4 0
    ⟨[⟨"analyze_code_quality", "args"⟩], ""⟩ initialToolsUsed [] 1
    ⟨[], "done"⟩ ["analyze_code_quality", "get_review_prompts"]
    [.toolOk "analyze_code_quality" "ok"] (by decide) rfl rfl
  simpa using h

/-! ## Claim C2: forcing ladder -/

/-- C2 (confirmed): when the first backend response contains neither a
tool request nor a substantive answer (shorter than 50 characters), the
orchestrator runs up to three independent single-shot rephrasings.
The first rephrasing whose reply carries a tool request promotes the
session into the normal tool-executing flow, and the promoted session's
result is the final result when it completes; a thrown error anywhere
in a promoted session is caught by the strategy's `catch` and the
ladder resumes with the next rephrasing at the next backend
interaction; if none of the three attempts returns a result — each
either throws (caught), replies without tool calls, or promotes a
session that throws — the diagnostic placeholder is returned as a
successful degraded result; and in forcing mode the session can never
end as a thrown error. -/
theorem C2_forcing (exec : ToolCall → Except String String)
    (script : Nat → BEvent) (prUrl : String) (fuel : Nat) (r0 : ModelReply)
    (h0 : script 0 = .reply r0) (hc : r0.fcalls = [])
    (hshort : r0.text.length < 50) :
    (∀ i, i < 3 → (∀ j, j < i → noPromote (script (1 + j))) →
      ∀ ri : ModelReply, ∀ msg u t, script (1 + i) = .reply ri → ri.fcalls ≠ [] →
        runHandleFunctionCalls exec script (2 + i) ri (strategyText prUrl i) fuel
          = .ok msg u t →
        reviewPullRequest exec script prUrl fuel = .ok msg u t)
    ∧ (∀ i, i < 3 → (∀ j, j < i → noPromote (script (1 + j))) →
      ∀ ri : ModelReply, ∀ m, script (1 + i) = .reply ri → ri.fcalls ≠ [] →
        runHandleFunctionCalls exec script (2 + i) ri (strategyText prUrl i) fuel
          = .fail m →
        reviewPullRequest exec script prUrl fuel
          = forceStrategies exec script prUrl fuel
              (runHandleFunctionCallsNext exec script (2 + i) ri
                (strategyText prUrl i) fuel) (i + 1))
    ∧ ((∀ j, j < 3 → noPromote (script (1 + j))) →
        reviewPullRequest exec script prUrl fuel = .ok degradedMessage [] [])
    ∧ (∀ m, reviewPullRequest exec script prUrl fuel ≠ Outcome.fail m) := by
  have hstart : reviewPullRequest exec script prUrl fuel
      = forceStrategies exec script prUrl fuel 1 0 := by
    rw [reviewPullRequest, h0]
    simp [hc, hshort]
  refine ⟨?_, ?_, ?_, ?_⟩
  · intro i hi hprev ri msg u t hri hne hrun
    interval_cases i
    · rw [hstart]
      exact forceStrategies_promote_ok exec script prUrl fuel 1 0 (by omega)
        ri hri hne msg u t hrun
    · rw [hstart, forceStrategies_skip exec script prUrl fuel 1 0 (by omega)
        (hprev 0 (by omega))]
      exact forceStrategies_promote_ok exec script prUrl fuel (1 + 1) (0 + 1)
        (by omega) ri hri hne msg u t hrun
    · rw [hstart, forceStrategies_skip exec script prUrl fuel 1 0 (by omega)
        (hprev 0 (by omega)),
        forceStrategies_skip exec script prUrl fuel (1 + 1) (0 + 1) (by omega)
          (hprev 1 (by omega))]
      exact forceStrategies_promote_ok exec script prUrl fuel (1 + 1 + 1)
        (0 + 1 + 1) (by omega) ri hri hne msg u t hrun
  · intro i hi hprev ri m hri hne hrun
    interval_cases i
    · rw [hstart]
      exact forceStrategies_promote_fail exec script prUrl fuel 1 0 (by omega)
        ri hri hne m hrun
    · rw [hstart, forceStrategies_skip exec script prUrl fuel 1 0 (by omega)
        (hprev 0 (by omega))]
      exact forceStrategies_promote_fail exec script prUrl fuel (1 + 1) (0 + 1)
        (by omega) ri hri hne m hrun
    · rw [hstart, forceStrategies_skip exec script prUrl fuel 1 0 (by omega)
        (hprev 0 (by omega)),
        forceStrategies_skip exec script prUrl fuel (1 + 1) (0 + 1) (by omega)
          (hprev 1 (by omega))]
      exact forceStrategies_promote_fail exec script prUrl fuel (1 + 1 + 1)
        (0 + 1 + 1) (by omega) ri hri hne m hrun
  · intro hall
    rw [hstart,
      forceStrategies_skip exec script prUrl fuel 1 0 (by omega)
        (hall 0 (by omega)),
      forceStrategies_skip exec script prUrl fuel (1 + 1) (0 + 1) (by omega)
        (hall 1 (by omega)),
      forceStrategies_skip exec script prUrl fuel (1 + 1 + 1) (0 + 1 + 1)
        (by omega) (hall 2 (by omega))]
    exact forceStrategies_exhaust exec script prUrl fuel (1 + 1 + 1 + 1)
  · intro m
    rw [hstart]
    exact forceStrategies_ne_fail exec script prUrl fuel 3 1 0 (by omega) m

/-- C2 witness: a script whose first strategy throws and whose second
elicits a tool request with a completing session returns that session's
result; a script where no strategy elicits a request ends in the
degraded placeholder; a script whose promoted session throws resumes
the ladder at the next interaction and never surfaces the thrown
error. -/
theorem C2_witness :
    reviewPullRequest execOkW scriptC2 "https://github.com/acme/widget/pull/42" 9
      = .ok "final review text" ["get_review_prompts"]
          [.user (strategyText "https://github.com/acme/widget/pull/42" 1),
           .modelCall ⟨"get_pr_details", "url"⟩,
           .toolOk "get_pr_details" "ok"]
    ∧ reviewPullRequest execOkW scriptC2b "https://github.com/acme/widget/pull/42" 9
      = .ok degradedMessage [] []
    ∧ reviewPullRequest execOkW scriptC2c "https://github.com/acme/widget/pull/42" 9
      = forceStrategies execOkW scriptC2c "https://github.com/acme/widget/pull/42" 9
          (runHandleFunctionCallsNext execOkW scriptC2c 2
            ⟨[⟨"get_pr_details", "u"⟩], ""⟩
            (strategyText "https://github.com/acme/widget/pull/42" 0) 9) 1
    ∧ reviewPullRequest execOkW scriptC2c "https://github.com/acme/widget/pull/42" 9
      ≠ Outcome.fail "backend down" := by
  refine ⟨?_, ?_, ?_, ?_⟩
  · exact (C2_forcing execOkW scriptC2 _ 9 ⟨[], "hi"⟩ rfl rfl (by decide)).1 1
      (by omega)
      (by intro j hj; interval_cases j; simp [scriptC2, noPromote])
      ⟨[⟨"get_pr_details", "url"⟩], ""⟩ _ _ _ rfl (by decide) (by decide)
  · exact (C2_forcing execOkW scriptC2b _ 9 ⟨[], "hi"⟩ rfl rfl (by decide)).2.2.1
      (by intro j hj; interval_cases j <;> simp [scriptC2b, noPromote])
  · exact (C2_forcing execOkW scriptC2c _ 9 ⟨[], "hi"⟩ rfl rfl (by decide)).2.1 0
      (by omega) (by intro j hj; omega)
      ⟨[⟨"get_pr_details", "u"⟩], ""⟩ "backend down" rfl (by decide) (by decide)
  · exact (C2_forcing execOkW scriptC2c _ 9 ⟨[], "hi"⟩ rfl rfl (by decide)).2.2.2
      "backend down"

/-! ## Claim C3: tool failures are recorded, the session continues -/

/-- C3 (confirmed): a throwing tool invocation inside a session is
caught: the structured `(error : message)` payload is appended to the
transcript as the tool-response turn — both in the initial batch and in
the continuation loop — and processing continues with the remaining
calls; moreover a session whose backend never throws can never end in
the fatal `fail` outcome, whatever the tools do, so a failing tool
never terminates the session. -/
theorem C3_tool_error_continues :
    (∀ (exec : ToolCall → Except String String) (script : Nat → BEvent)
      (k : Nat) (fr r : ModelReply) (call : ToolCall) (rest : List ToolCall)
      (used : List String) (tr : List Turn) (m : String),
      exec call = .error m → script k = .reply r →
      execBatch exec script k fr (call :: rest) used tr
        = execBatch exec script (k + 1) r rest (addTool call.name used)
            (tr ++ [Turn.toolError call.name m]))
    ∧ (∀ (exec : ToolCall → Except String String) (call : ToolCall)
        (rest : List ToolCall) (tr : List Turn) (m : String),
        exec call = .error m →
        initBatch exec (call :: rest) tr
          = initBatch exec rest (tr ++ [Turn.toolError call.name m]))
    ∧ (∀ (exec : ToolCall → Except String String) (script : Nat → BEvent),
        (∀ j, (script j).isFail = false) →
        ∀ (fuel k : Nat) (fr : ModelReply) (used : List String)
          (tr : List Turn) (m : String),
          sessionLoop exec script fuel k fr used tr ≠ .fail m) := by
  refine ⟨?_, ?_, ?_⟩
  · intro exec script k fr r call rest used tr m he hsk
    simp only [execBatch, he, hsk]
  · intro exec call rest tr m he
    rw [initBatch, he]
  · intro exec script hs fuel k fr used tr m
    exact sessionLoop_ne_fail exec script hs fuel k fr used tr m

/-- C3 witness. -/
theorem C3_witness :
    execBatch execFailW scriptReplyW 0 ⟨[], ""⟩ [⟨"get_pr_files", "a"⟩] [] []
      = execBatch execFailW scriptReplyW 1 ⟨[], "done"⟩ []
          (addTool "get_pr_files" []) ([] ++ [Turn.toolError "get_pr_files" "boom"])
    ∧ initBatch execFailW [⟨"get_pr_files", "a"⟩] []
      = initBatch execFailW [] ([] ++ [Turn.toolError "get_pr_files" "boom"])
    ∧ sessionLoop execFailW scriptReplyW 3 0 ⟨[⟨"get_pr_files", "a"⟩], ""⟩ [] []
      ≠ .fail "boom" :=
  ⟨C3_tool_error_continues.1 execFailW scriptReplyW 0 ⟨[], ""⟩ ⟨[], "done"⟩
      ⟨"get_pr_files", "a"⟩ [] [] [] "boom" rfl rfl,
   C3_tool_error_continues.2.1 execFailW ⟨"get_pr_files", "a"⟩ [] [] "boom" rfl,
   C3_tool_error_continues.2.2 execFailW scriptReplyW (fun _ => rfl) 3 0
     ⟨[⟨"get_pr_files", "a"⟩], ""⟩ [] [] "boom"⟩

/-! ## Claim C5: tool-usage set lifecycle -/

/-- C5 (counterexample): the tool-usage set is not created empty — at
its creation it already contains `get_review_prompts`.  A session whose
only executed tool is `get_pr_details` ends with the usage set equal to
`(get_review_prompts)`, a name never invoked, and that set is
nonempty by construction. -/
theorem C5_counterexample :
    runHandleFunctionCalls execOkW scriptReplyW 0
        ⟨[⟨"get_pr_details", "url"⟩], ""⟩ "prompt" 5
      = .ok "done" ["get_review_prompts"]
          [.user "prompt", .modelCall ⟨"get_pr_details", "url"⟩,
           .toolOk "get_pr_details" "ok"]
    ∧ initialToolsUsed ≠ [] :=
  ⟨by decide, by decide⟩

/-- C5 (amended): the tool-usage set is created as the singleton
containing `get_review_prompts` when the continuation loop starts (the
initial batch's tool names are not recorded), and from then on it grows
monotonically — names are only added, never removed — until the session
ends. -/
theorem C5_usage_set :
    initialToolsUsed = ["get_review_prompts"]
    ∧ ∀ (exec : ToolCall → Except String String) (script : Nat → BEvent)
        (fuel k : Nat) (fr : ModelReply) (used : List String) (tr : List Turn)
        (msg : String) (u2 : List String) (t2 : List Turn),
        sessionLoop exec script fuel k fr used tr = .ok msg u2 t2 →
        used ⊆ u2 :=
  ⟨rfl, fun exec script fuel k fr used tr msg u2 t2 h =>
    sessionLoop_used_subset exec script fuel k fr used tr msg u2 t2 h⟩

/-- C5 witness. -/
theorem C5_witness :
    initialToolsUsed = ["get_review_prompts"]
    ∧ initialToolsUsed ⊆ ["analyze_code_quality", "get_review_prompts"] :=
  ⟨C5_usage_set.1,
   C5_usage_set.2 execOkW scriptReplyW 5 0
     ⟨[⟨"analyze_code_quality", "args"⟩], ""⟩ initialToolsUsed [] "done"
     ["analyze_code_quality", "get_review_prompts"]
     [.toolOk "analyze_code_quality" "ok"] (by decide)⟩

end GithubReviewMcp
